import Mathlib

/-!
Shallow embedding of `src/cronner/cache.py` (the `Cache` class over a
SQLite database with tables `jobs` and `history`, plus the module-level
`get_cache` singleton accessor), together with theorems settling the
spec claims about it.

Modelling decisions:
* The SQLite database content is a `DB`: the `jobs` table and the
  `history` table, each a list of rows in insertion (rowid) order —
  `SELECT` without `ORDER BY` returns rows in that order, and
  `fetchone` returns the first row.
* SQLite `REAL` timestamps and `INTEGER` results are never computed
  with by this layer, only stored and returned; nullable columns are
  modelled as `Option Int`.
* The Python job dictionary with keys `"id"`, `"description"`,
  `"last-run"`, `"next-run"`, `"last-run-result"` is the structure
  `JobDict`.
* Each method is a function of the current `DB`; a method that runs an
  SQL statement that can raise `sqlite3.IntegrityError` returns
  `DB × Except SqlError Bool`, where the returned `DB` is the store
  after the call (a failed `INSERT` leaves the store unchanged and the
  exception propagates).
* The connection opened in `Cache.__init__` executes
  `PRAGMA foreign_keys = ON`, so the `FOREIGN KEY(hash) REFERENCES
  jobs(hash)` constraint on `history` is enforced on every `INSERT
  INTO history`.
-/

/-- One row of the `jobs` table:
`jobs(hash TEXT NOT NULL UNIQUE PRIMARY KEY, description TEXT NOT NULL,
last_run REAL, next_run REAL, last_run_result INTEGER)`. -/
structure JobRow where
  hash : String
  description : String
  last_run : Option Int
  next_run : Option Int
  last_run_result : Option Int
deriving DecidableEq, Repr

/-- One row of the `history` table:
`history(hash TEXT, description TEXT, time REAL, result INTEGER,
FOREIGN KEY(hash) REFERENCES jobs(hash))`. -/
structure HistoryRow where
  hash : String
  description : String
  time : Option Int
  result : Option Int
deriving DecidableEq, Repr

/-- The content of the SQLite database file: both tables, rows in
insertion order. -/
structure DB where
  jobs : List JobRow
  history : List HistoryRow
deriving DecidableEq, Repr

/-- The Python job dictionary passed to `has`, `update`, `add_job`,
`add_result` and returned by `get`: keys `"id"`, `"description"`,
`"last-run"`, `"next-run"`, `"last-run-result"`. -/
structure JobDict where
  id : String
  description : String
  last_run : Option Int
  next_run : Option Int
  last_run_result : Option Int
deriving DecidableEq, Repr

/-- The `sqlite3` exception relevant to this layer:
`sqlite3.IntegrityError`, raised on a violated `UNIQUE`/`PRIMARY KEY`
or `FOREIGN KEY` constraint. -/
inductive SqlError where
  | integrityError
deriving DecidableEq, Repr

/-- The Python `Cache` object itself (it wraps the connection; the
database content lives in `DB`).  `filename` is the `cache_file`
argument of `Cache.__init__` (`None` when `get_cache` is first called
with its default argument). -/
structure Cache where
  filename : Option String
deriving DecidableEq, Repr

/-- Model of a `sqlite3.Cursor` after an `execute` of
`SELECT count(*) ...`: it holds the pending single-column result rows.
`cursor.execute` returns the cursor object itself. -/
structure Cursor where
  pendingCounts : List Nat
deriving DecidableEq, Repr

/-- Python truthiness of a `sqlite3.Cursor` object: the class defines
neither a `bool` conversion nor a length, so `bool(cursor)` falls back
to default object truthiness and is `True` for every cursor, whatever
rows it holds. -/
def Cursor.toBool (_ : Cursor) : Bool :=
  true

/-- The value `count(*)` computed by
`SELECT count(*) FROM jobs WHERE hash=?`. -/
def countWhereHash (db : DB) (id : String) : Nat :=
  (db.jobs.filter (fun r => r.hash == id)).length

/-- `Cache.has(job)`:
`return bool(self.cur.execute('SELECT count(*) FROM jobs WHERE hash=?', (job["id"],)))`.
The argument is the `"id"` value of the job dictionary. -/
def Cache.has (db : DB) (id : String) : Bool :=
  (Cursor.mk [countWhereHash db id]).toBool

/-- The `zip(("id", "description", "last-run", "next-run",
"last-run-result"), item)` step of `Cache.get`: the `SELECT *` column
order is `hash, description, last_run, next_run, last_run_result`. -/
def rowToDict (r : JobRow) : JobDict :=
  { id := r.hash, description := r.description, last_run := r.last_run,
    next_run := r.next_run, last_run_result := r.last_run_result }

/-- `Cache.get(id)`: `SELECT * FROM jobs WHERE hash=?`, `fetchone`,
and either the zipped dictionary or `None`.  A `SELECT` does not
modify the database, so no `DB` is returned. -/
def Cache.get (db : DB) (id : String) : Option JobDict :=
  (db.jobs.find? (fun r => r.hash == id)).map rowToDict

/-- The per-row effect of
`UPDATE jobs SET last_run=?,next_run=?,last_run_result=? WHERE hash=?`
with `job["last-run"], job["next-run"], job["last-run-result"],
job["id"]`: a row whose `hash` matches gets the three run columns
overwritten, any other row is left as it is. -/
def updateRow (job : JobDict) (r : JobRow) : JobRow :=
  if r.hash == job.id then
    { r with last_run := job.last_run, next_run := job.next_run,
             last_run_result := job.last_run_result }
  else r

/-- `Cache.update(job)`: the `UPDATE` statement above applied to the
`jobs` table.  An `UPDATE` touching no constrained column never
raises, and the Python method has no `return` statement (it returns
`None` on every path), so only the new store is returned. -/
def Cache.update (db : DB) (job : JobDict) : DB :=
  { db with jobs := db.jobs.map (updateRow job) }

/-- The row inserted by `Cache.add_job`:
`INSERT INTO jobs VALUES(?,?,?,?,?)` with
`job["id"], job["description"], job["last-run"], job["next-run"],
job["last-run-result"]`. -/
def jobToRow (job : JobDict) : JobRow :=
  { hash := job.id, description := job.description, last_run := job.last_run,
    next_run := job.next_run, last_run_result := job.last_run_result }

/-- `Cache.add_job(job)`: the `INSERT INTO jobs` above, then
`return True`.  The `hash` column is `UNIQUE PRIMARY KEY`, so the
insert raises `sqlite3.IntegrityError` when a row with that hash is
already present, leaving the table unchanged. -/
def Cache.add_job (db : DB) (job : JobDict) : DB × Except SqlError Bool :=
  if db.jobs.any (fun r => r.hash == job.id) then
    (db, Except.error SqlError.integrityError)
  else
    ({ db with jobs := db.jobs ++ [jobToRow job] }, Except.ok true)

/-- The row inserted by `Cache.add_result`:
`INSERT INTO history VALUES(?,?,?,?)` with
`job["id"], job["description"], job["last-run"], job["last-run-result"]`
— the `time` column receives the job's `"last-run"` value and the
`result` column its `"last-run-result"` value. -/
def histRowOf (job : JobDict) : HistoryRow :=
  { hash := job.id, description := job.description, time := job.last_run,
    result := job.last_run_result }

/-- `Cache.add_result(job)`: the `INSERT INTO history` above, then
`return True`.  With `PRAGMA foreign_keys = ON`, the `FOREIGN
KEY(hash) REFERENCES jobs(hash)` constraint makes the insert raise
`sqlite3.IntegrityError` when no `jobs` row carries that hash;
otherwise the row is appended (no uniqueness constraint on
`history`). -/
def Cache.add_result (db : DB) (job : JobDict) : DB × Except SqlError Bool :=
  if db.jobs.any (fun r => r.hash == job.id) then
    ({ db with history := db.history ++ [histRowOf job] }, Except.ok true)
  else
    (db, Except.error SqlError.integrityError)

/-- `_init(cache_file)`: `CACHE = Cache(cache_file)` — replaces the
module-level global (modelled as `Option Cache`, `none` for Python
`None`) with a freshly constructed object. -/
def _init (cache_file : Option String) : Option Cache :=
  some (Cache.mk cache_file)

/-- `get_cache(config_file=None)`:
`if CACHE is None: _init(config_file)` then `return CACHE`.  Takes the
global `CACHE` state and returns the returned object together with the
new global state.  (`g1` is always `some`, so the `getD` default is
never used.) -/
def get_cache (g : Option Cache) (config_file : Option String) : Cache × Option Cache :=
  let g1 : Option Cache :=
    match g with
    | none => _init config_file
    | some c => some c
  (g1.getD (Cache.mk config_file), g1)

/-! ## Shared helper lemmas and sample data -/

/-- A `find?` miss on the whole `jobs` table, from a false `any`. -/
theorem find?_jobs_eq_none_of_any_false (db : DB) (id : String)
    (h : db.jobs.any (fun r => r.hash == id) = false) :
    db.jobs.find? (fun r => r.hash == id) = none := by
  rw [List.find?_eq_none]
  intro x hx
  simpa using List.any_eq_false.mp h x hx

/-- A successful `get` forces a hit in the `jobs` table. -/
theorem any_true_of_get_some (db : DB) (id : String) (d : JobDict)
    (h : Cache.get db id = some d) :
    db.jobs.any (fun r => r.hash == id) = true := by
  unfold Cache.get at h
  cases hf : db.jobs.find? (fun r => r.hash == id) with
  | none => rw [hf] at h; simp at h
  | some r =>
      have hp : (r.hash == id) = true := by simpa using List.find?_some hf
      exact List.any_eq_true.mpr ⟨r, List.mem_of_find?_eq_some hf, hp⟩

/-- Pointwise relation between a list and its image under `map`. -/
theorem forall2_map_self {α β : Type} (f : α → β) (R : α → β → Prop)
    (h : ∀ a, R a (f a)) : ∀ l : List α, List.Forall₂ R l (l.map f)
  | [] => List.Forall₂.nil
  | a :: l => List.Forall₂.cons (h a) (forall2_map_self f R h l)

/-- Sample job dictionary used by concrete witnesses. -/
def sampleJob : JobDict :=
  { id := "abc", description := "nightly backup", last_run := none,
    next_run := some 1700000000, last_run_result := none }

/-- Sample store holding exactly the row of `sampleJob`. -/
def sampleDB : DB :=
  { jobs := [jobToRow sampleJob], history := [] }

/-! ## Claim theorems -/

/-- C1: the claim states that `exists` (`Cache.has`) returns `false`
before any insert with the given id and `true` exactly when a row with
that id is present.  The code instead returns
`bool(cursor.execute(...))`, and a cursor is always truthy, so `has`
returns `true` on every store and every id — in particular on the
empty store, where `count(*)` is `0`.  This contradicts the method's
own docstring ("True if the job exists, False otherwise"), so the
claim is right and the code is wrong. -/
theorem has_always_true :
    (∀ (db : DB) (id : String), Cache.has db id = true) ∧
    countWhereHash { jobs := [], history := [] } "abc" = 0 :=
  ⟨fun _ _ => rfl, rfl⟩

/-- C2: inserting a job whose identifier is not yet present succeeds,
and `get` on that identifier returns a dictionary equal in every field
to the inserted one. -/
theorem add_job_then_get (db : DB) (job : JobDict)
    (h : db.jobs.any (fun r => r.hash == job.id) = false) :
    (Cache.add_job db job).2 = Except.ok true ∧
    Cache.get (Cache.add_job db job).1 job.id = some job := by
  have hif : Cache.add_job db job =
      ({ db with jobs := db.jobs ++ [jobToRow job] }, Except.ok true) := by
    unfold Cache.add_job
    simp [h]
  rw [hif]
  refine ⟨rfl, ?_⟩
  unfold Cache.get
  rw [show ({ db with jobs := db.jobs ++ [jobToRow job] } : DB).jobs
        = db.jobs ++ [jobToRow job] from rfl,
      List.find?_append, find?_jobs_eq_none_of_any_false db job.id h]
  simp [jobToRow, rowToDict]

/-- C2 witness at a concrete input. -/
theorem add_job_then_get_witness :
    (({ jobs := [], history := [] } : DB).jobs.any
        (fun r => r.hash == sampleJob.id) = false) ∧
    ((Cache.add_job { jobs := [], history := [] } sampleJob).2 = Except.ok true ∧
     Cache.get (Cache.add_job { jobs := [], history := [] } sampleJob).1
        sampleJob.id = some sampleJob) :=
  ⟨rfl, add_job_then_get { jobs := [], history := [] } sampleJob rfl⟩

/-- C3: a second insert with an identifier already present raises the
duplicate-key `IntegrityError`, the store is unchanged by the rejected
insert, and `get` afterwards still returns the first record's
content. -/
theorem duplicate_add_job_rejected (db : DB) (job2 : JobDict) (d : JobDict)
    (h : Cache.get db job2.id = some d) :
    Cache.add_job db job2 = (db, Except.error SqlError.integrityError) ∧
    Cache.get (Cache.add_job db job2).1 job2.id = some d := by
  have hany := any_true_of_get_some db job2.id d h
  have he : Cache.add_job db job2 = (db, Except.error SqlError.integrityError) := by
    unfold Cache.add_job
    simp [hany]
  exact ⟨he, by rw [he]; exact h⟩

/-- C3 witness at a concrete input. -/
theorem duplicate_add_job_rejected_witness :
    Cache.get sampleDB sampleJob.id = some sampleJob ∧
    (Cache.add_job sampleDB
        { sampleJob with description := "other" } =
          (sampleDB, Except.error SqlError.integrityError) ∧
     Cache.get (Cache.add_job sampleDB
        { sampleJob with description := "other" }).1 sampleJob.id
        = some sampleJob) := by
  refine ⟨by decide, ?_⟩
  have := duplicate_add_job_rejected sampleDB
    { sampleJob with description := "other" } sampleJob (by decide)
  exact this

/-- C6: `get` on an identifier with no matching `jobs` row returns
`None` (modelled as `none`); a `SELECT` does not modify the store,
which is why `Cache.get` returns no new `DB` at all. -/
theorem get_missing_id_none (db : DB) (id : String)
    (h : db.jobs.any (fun r => r.hash == id) = false) :
    Cache.get db id = none := by
  unfold Cache.get
  rw [find?_jobs_eq_none_of_any_false db id h]
  rfl

/-- C6 witness at a concrete input. -/
theorem get_missing_id_none_witness :
    (sampleDB.jobs.any (fun r => r.hash == "zzz") = false) ∧
    Cache.get sampleDB "zzz" = none :=
  ⟨by decide, get_missing_id_none sampleDB "zzz" (by decide)⟩

/-- C7: no operation of this layer modifies or deletes an existing
history row: `update` and `add_job` leave the `history` table
untouched on every input (both branches of `add_job`), and
`add_result` only ever appends to it; `has` and `get` run `SELECT`
statements and return no modified store at all. -/
theorem history_rows_immutable (db : DB) (job : JobDict) :
    (Cache.update db job).history = db.history ∧
    (Cache.add_job db job).1.history = db.history ∧
    ∃ appended, (Cache.add_result db job).1.history = db.history ++ appended := by
  refine ⟨rfl, ?_, ?_⟩
  · unfold Cache.add_job
    split <;> rfl
  · unfold Cache.add_result
    split
    · exact ⟨[histRowOf job], rfl⟩
    · exact ⟨[], (List.append_nil _).symm⟩

/-- C8: once the global `CACHE` is initialized, every later
`get_cache` call returns the very same object whatever `config_file`
argument it receives, and leaves the global unchanged (no second store
is constructed); the second conjunct instantiates this for a first
call from the uninitialized state followed by a second call with a
different argument. -/
theorem get_cache_singleton (c : Cache) (a b : Option String) :
    get_cache (some c) a = (c, some c) ∧
    (get_cache ((get_cache none a).2) b).1 = (get_cache none a).1 :=
  ⟨rfl, rfl⟩

/-- C10: `update` for an identifier with no matching `jobs` row is a
silent no-op: the `UPDATE ... WHERE hash=?` statement matches no row,
raises nothing (the model is a total function with no error result,
and the Python method returns `None` on every path), and leaves the
whole store unchanged. -/
theorem update_missing_id_noop (db : DB) (job : JobDict)
    (h : db.jobs.any (fun r => r.hash == job.id) = false) :
    Cache.update db job = db := by
  have hall := List.any_eq_false.mp h
  have hmap : db.jobs.map (updateRow job) = db.jobs := by
    calc db.jobs.map (updateRow job) = db.jobs.map id :=
          List.map_congr_left (fun r hr => by
            have hne : ¬ (r.hash == job.id) = true := by
              simpa using hall r hr
            unfold updateRow
            rw [if_neg hne]
            rfl)
      _ = db.jobs := List.map_id db.jobs
  unfold Cache.update
  rw [hmap]

/-- C10 witness at a concrete input. -/
theorem update_missing_id_noop_witness :
    (sampleDB.jobs.any
        (fun r => r.hash == ({ sampleJob with id := "zzz" } : JobDict).id) = false) ∧
    Cache.update sampleDB { sampleJob with id := "zzz" } = sampleDB :=
  ⟨by decide, update_missing_id_noop sampleDB { sampleJob with id := "zzz" } (by decide)⟩


/-- Row-level frame facts about the `UPDATE` statement's per-row
effect: hash and description always survive, a matching row gets
exactly the three run columns overwritten, a non-matching row is
untouched. -/
theorem updateRow_rel (job : JobDict) (r : JobRow) :
    (updateRow job r).hash = r.hash ∧
    (updateRow job r).description = r.description ∧
    (r.hash = job.id →
      (updateRow job r).last_run = job.last_run ∧
      (updateRow job r).next_run = job.next_run ∧
      (updateRow job r).last_run_result = job.last_run_result) ∧
    (r.hash ≠ job.id → updateRow job r = r) := by
  unfold updateRow
  by_cases hb : (r.hash == job.id) = true
  · rw [if_pos hb]
    have heq : r.hash = job.id := by simpa using hb
    exact ⟨rfl, rfl, fun _ => ⟨rfl, rfl, rfl⟩, fun hne => absurd heq hne⟩
  · rw [if_neg hb]
    have hne : r.hash ≠ job.id := by simpa using hb
    exact ⟨rfl, rfl, fun heq => absurd heq hne, fun _ => rfl⟩

/-- The `UPDATE` statement's per-row effect keeps the `hash` column. -/
theorem updateRow_hash (job : JobDict) (r : JobRow) :
    (updateRow job r).hash = r.hash :=
  (updateRow_rel job r).1

/-- C4: `update` for an identifier present in the store changes
exactly the three run fields of the matching row: the history table is
untouched, the rows of the jobs table correspond one to one with the
old ones — same hash and same description everywhere, a row whose hash
is not the target left entirely unchanged, the target row's
`last_run`, `next_run`, `last_run_result` set to the supplied values —
and a `get` right after the call returns the updated record. -/
theorem update_changes_exactly_run_fields (db : DB) (job : JobDict) (d : JobDict)
    (h : Cache.get db job.id = some d) :
    (Cache.update db job).history = db.history ∧
    List.Forall₂ (fun r r2 =>
      r2.hash = r.hash ∧ r2.description = r.description ∧
      (r.hash = job.id →
        r2.last_run = job.last_run ∧ r2.next_run = job.next_run ∧
        r2.last_run_result = job.last_run_result) ∧
      (r.hash ≠ job.id → r2 = r)) db.jobs (Cache.update db job).jobs ∧
    Cache.get (Cache.update db job) job.id =
      some { id := job.id, description := d.description, last_run := job.last_run,
             next_run := job.next_run, last_run_result := job.last_run_result } := by
  refine ⟨rfl, ?_, ?_⟩
  · show List.Forall₂ _ db.jobs (db.jobs.map (updateRow job))
    exact forall2_map_self (updateRow job) _ (fun r => updateRow_rel job r) db.jobs
  · unfold Cache.get at h
    cases hf : db.jobs.find? (fun r => r.hash == job.id) with
    | none => rw [hf] at h; simp at h
    | some r0 =>
      rw [hf] at h
      have hd : rowToDict r0 = d := by simpa using h
      have hr0 : (r0.hash == job.id) = true := by
        simpa using List.find?_some hf
      have hhash : r0.hash = job.id := by simpa using hr0
      have hpred : ((fun r : JobRow => r.hash == job.id) ∘ updateRow job)
          = (fun r : JobRow => r.hash == job.id) := by
        funext r
        show ((updateRow job r).hash == job.id) = (r.hash == job.id)
        rw [updateRow_hash]
      show ((db.jobs.map (updateRow job)).find?
          (fun r => r.hash == job.id)).map rowToDict = _
      rw [List.find?_map, hpred, hf]
      show some (rowToDict (updateRow job r0)) = _
      unfold updateRow
      rw [if_pos hr0]
      simp [rowToDict, hhash, ← hd]

/-- The job dictionary carrying fresh run values, used by the C4
witness. -/
def sampleJobUpd : JobDict :=
  { id := "abc", description := "nightly backup", last_run := some 5,
    next_run := some 6, last_run_result := some 0 }

/-- C4 witness at a concrete input. -/
theorem update_changes_exactly_run_fields_witness :
    Cache.get sampleDB sampleJobUpd.id = some sampleJob ∧
    ((Cache.update sampleDB sampleJobUpd).history = sampleDB.history ∧
     List.Forall₂ (fun r r2 =>
       r2.hash = r.hash ∧ r2.description = r.description ∧
       (r.hash = sampleJobUpd.id →
         r2.last_run = sampleJobUpd.last_run ∧
         r2.next_run = sampleJobUpd.next_run ∧
         r2.last_run_result = sampleJobUpd.last_run_result) ∧
       (r.hash ≠ sampleJobUpd.id → r2 = r)) sampleDB.jobs
       (Cache.update sampleDB sampleJobUpd).jobs ∧
     Cache.get (Cache.update sampleDB sampleJobUpd) sampleJobUpd.id =
       some { id := sampleJobUpd.id, description := sampleJob.description,
              last_run := sampleJobUpd.last_run,
              next_run := sampleJobUpd.next_run,
              last_run_result := sampleJobUpd.last_run_result }) :=
  ⟨by decide,
   update_changes_exactly_run_fields sampleDB sampleJobUpd sampleJob (by decide)⟩

/-- C5 counterexample: on an empty store, a single `add_result` call
for identifier `"a"` is rejected by the enforced foreign key from
`history.hash` to `jobs.hash` (`PRAGMA foreign_keys = ON`), raising
`IntegrityError` and leaving zero history rows — so one call does not
produce one retrievable history row, refuting the claim for
identifiers with no `jobs` row. -/
theorem add_result_rejects_unknown_id :
    Cache.add_result { jobs := [], history := [] }
        { id := "a", description := "d", last_run := none, next_run := none,
          last_run_result := none } =
      ({ jobs := [], history := [] }, Except.error SqlError.integrityError) :=
  rfl

/-- Repeated `add_result` calls, one per element of `js`, each keeping
the store threaded through (`foldl`). -/
def addResults (db : DB) (js : List JobDict) : DB :=
  js.foldl (fun d j => (Cache.add_result d j).1) db

/-- C5 (amended): for job dictionaries whose identifiers all have a
`jobs` row in the store — the condition the enforced foreign key
imposes — `add_result` is cumulative and never rejects duplicates:
N calls leave the `jobs` table untouched and append exactly N history
rows in order, each built from the values supplied in its own call, so
no call overwrites or removes an earlier row. -/
theorem add_result_cumulative (db : DB) (js : List JobDict)
    (h : ∀ j ∈ js, db.jobs.any (fun r => r.hash == j.id) = true) :
    (addResults db js).jobs = db.jobs ∧
    (addResults db js).history = db.history ++ js.map histRowOf := by
  induction js generalizing db with
  | nil => exact ⟨rfl, by simp [addResults]⟩
  | cons j t ih =>
    have hj := h j (List.mem_cons_self j t)
    have hstep : (Cache.add_result db j).1 =
        { db with history := db.history ++ [histRowOf j] } := by
      unfold Cache.add_result
      rw [if_pos hj]
    have hfold : addResults db (j :: t) =
        addResults (Cache.add_result db j).1 t := rfl
    have ht : ∀ x ∈ t,
        ({ db with history := db.history ++ [histRowOf j] } : DB).jobs.any
          (fun r => r.hash == x.id) = true := by
      intro x hx
      exact h x (List.mem_cons_of_mem j hx)
    obtain ⟨h1, h2⟩ := ih { db with history := db.history ++ [histRowOf j] } ht
    rw [hfold, hstep]
    refine ⟨h1, ?_⟩
    rw [h2]
    simp

/-- C5 witness: two calls for the known identifier append exactly the
two corresponding rows. -/
theorem add_result_cumulative_witness :
    (∀ j ∈ [sampleJob, sampleJobUpd],
        sampleDB.jobs.any (fun r => r.hash == j.id) = true) ∧
    ((addResults sampleDB [sampleJob, sampleJobUpd]).jobs = sampleDB.jobs ∧
     (addResults sampleDB [sampleJob, sampleJobUpd]).history =
       sampleDB.history ++ [sampleJob, sampleJobUpd].map histRowOf) :=
  ⟨by decide, add_result_cumulative sampleDB [sampleJob, sampleJobUpd] (by decide)⟩

/-- C9: whenever `add_result` succeeds in writing a history row, that
row's `time` column holds the supplied dictionary's `"last-run"` value
and its `result` column the `"last-run-result"` value — the method has
no separate time/result parameters. -/
theorem add_result_row_from_job_fields (db : DB) (job : JobDict) (db2 : DB)
    (h : Cache.add_result db job = (db2, Except.ok true)) :
    db2.history = db.history ++
      [{ hash := job.id, description := job.description, time := job.last_run,
         result := job.last_run_result }] := by
  unfold Cache.add_result at h
  by_cases hb : db.jobs.any (fun r => r.hash == job.id) = true
  · rw [if_pos hb] at h
    injection h with h1 h2
    rw [← h1]
    rfl
  · rw [if_neg hb] at h
    have h2 := congrArg Prod.snd h
    simp at h2

/-- C9 witness at a concrete input. -/
theorem add_result_row_from_job_fields_witness :
    Cache.add_result sampleDB sampleJobUpd =
      ({ jobs := sampleDB.jobs, history := [histRowOf sampleJobUpd] },
        Except.ok true) ∧
    ({ jobs := sampleDB.jobs, history := [histRowOf sampleJobUpd] } : DB).history =
      sampleDB.history ++
        [{ hash := sampleJobUpd.id, description := sampleJobUpd.description,
           time := sampleJobUpd.last_run,
           result := sampleJobUpd.last_run_result }] :=
  ⟨rfl,
   add_result_row_from_job_fields sampleDB sampleJobUpd
     { jobs := sampleDB.jobs, history := [histRowOf sampleJobUpd] } rfl⟩
